import Mathlib

/-!
Verification of the seagull cellular-automaton core.

Shallow embedding of `src/seagull/rules.py` and `src/seagull/board.py`.

* A 2-D numpy array of shape `(m, n)` holding boolean cells is embedded as a
  function `ZMod m → ZMod n → Bool`.  The toroidal ("wrap") boundary used by
  `convolve2d(..., boundary="wrap")` is exactly index arithmetic in `ZMod`.
* Numpy booleans behave as the integers `0` / `1` in arithmetic and
  comparisons; `cellVal` is that coercion.
* `Board` / `MultiStateBoard` placement uses numpy basic slicing on arrays of
  shape `(rows, cols)`; there indices are ordinary integers (negative indices
  count from the end, slices clip), so boards are embedded as total functions
  `ℕ → ℕ → Bool` together with their bounds, and Python slice semantics is
  modelled explicitly (`normIdx`, `sliceAssign2D`).
-/

/-- Numeric value of a numpy boolean cell (`False = 0`, `True = 1`). -/
def cellVal (b : Bool) : ℕ := if b then 1 else 0

/-- `_count_neighbors` from `rules.py`:
`convolve2d(X, np.ones((3,3)), mode="same", boundary="wrap") - X`.
The wrapped 3×3 all-ones convolution at `(i, j)` is the sum of `X` over the
window `(i + di - 1, j + dj - 1)`, `di dj ∈ {0,1,2}`, with toroidally wrapped
indices; the cell's own value is then subtracted. -/
def _count_neighbors {m n : ℕ} (X : ZMod m → ZMod n → Bool) (i : ZMod m) (j : ZMod n) : ℕ :=
  (∑ di ∈ Finset.range 3, ∑ dj ∈ Finset.range 3,
      cellVal (X (i + (di : ZMod m) - 1) (j + (dj : ZMod n) - 1)))
    - cellVal (X i j)

/-- The eight Moore-neighborhood offsets (row offset, column offset). -/
def mooreOffsets : List (ℤ × ℤ) :=
  [(-1,-1), (-1,0), (-1,1), (0,-1), (0,1), (1,-1), (1,0), (1,1)]

/-- Spec-side neighbor count, following the spec's words: the number of live
cells among the 8 Moore-neighborhood positions of `(i, j)`, with all four
edges wrapping toroidally and the cell itself excluded. -/
def mooreCount {m n : ℕ} (X : ZMod m → ZMod n → Bool) (i : ZMod m) (j : ZMod n) : ℕ :=
  (mooreOffsets.map fun p => cellVal (X (i + (p.1 : ZMod m)) (j + (p.2 : ZMod n)))).sum

lemma cellVal_le_one (b : Bool) : cellVal b ≤ 1 := by cases b <;> simp [cellVal]

/-- The wrap convolution minus the center is exactly the 8-term Moore sum. -/
lemma count_neighbors_eq_moore {m n : ℕ} (X : ZMod m → ZMod n → Bool)
    (i : ZMod m) (j : ZMod n) :
    _count_neighbors X i j =
      cellVal (X (i - 1) (j - 1)) + cellVal (X (i - 1) j) + cellVal (X (i - 1) (j + 1)) +
      cellVal (X i (j - 1)) + cellVal (X i (j + 1)) +
      cellVal (X (i + 1) (j - 1)) + cellVal (X (i + 1) j) + cellVal (X (i + 1) (j + 1)) := by
  have em0 : ∀ z : ZMod m, z + ((0 : ℕ) : ZMod m) - 1 = z - 1 := by intro z; push_cast; ring
  have em1 : ∀ z : ZMod m, z + ((1 : ℕ) : ZMod m) - 1 = z := by intro z; push_cast; ring
  have em2 : ∀ z : ZMod m, z + ((2 : ℕ) : ZMod m) - 1 = z + 1 := by intro z; push_cast; ring
  have en0 : ∀ z : ZMod n, z + ((0 : ℕ) : ZMod n) - 1 = z - 1 := by intro z; push_cast; ring
  have en1 : ∀ z : ZMod n, z + ((1 : ℕ) : ZMod n) - 1 = z := by intro z; push_cast; ring
  have en2 : ∀ z : ZMod n, z + ((2 : ℕ) : ZMod n) - 1 = z + 1 := by intro z; push_cast; ring
  simp only [_count_neighbors, Finset.sum_range_succ, Finset.sum_range_zero,
    zero_add, em0, em1, em2, en0, en1, en2]
  omega

/-- C2: `_count_neighbors` agrees with the spec-side Moore-neighborhood
count of live cells (8 toroidally wrapped positions, cell itself excluded),
and every entry lies in the range `[0, 8]`. -/
theorem C2_count_neighbors_moore_and_range {m n : ℕ} (X : ZMod m → ZMod n → Bool)
    (i : ZMod m) (j : ZMod n) :
    _count_neighbors X i j = mooreCount X i j ∧ _count_neighbors X i j ≤ 8 := by
  have hmc : mooreCount X i j =
      cellVal (X (i - 1) (j - 1)) + cellVal (X (i - 1) j) + cellVal (X (i - 1) (j + 1)) +
      cellVal (X i (j - 1)) + cellVal (X i (j + 1)) +
      cellVal (X (i + 1) (j - 1)) + cellVal (X (i + 1) j) + cellVal (X (i + 1) (j + 1)) := by
    simp only [mooreCount, mooreOffsets, List.map_cons, List.map_nil, List.sum_cons,
      List.sum_nil]
    push_cast
    ring_nf
  rw [count_neighbors_eq_moore, hmc]
  refine ⟨rfl, ?_⟩
  have h1 := cellVal_le_one (X (i - 1) (j - 1))
  have h2 := cellVal_le_one (X (i - 1) j)
  have h3 := cellVal_le_one (X (i - 1) (j + 1))
  have h4 := cellVal_le_one (X i (j - 1))
  have h5 := cellVal_le_one (X i (j + 1))
  have h6 := cellVal_le_one (X (i + 1) (j - 1))
  have h7 := cellVal_le_one (X (i + 1) j)
  have h8 := cellVal_le_one (X (i + 1) (j + 1))
  omega

/-- C7: `_count_neighbors` commutes with every cyclic shift of the rows
and/or columns: counting neighbors of the shifted grid is the shift of the
neighbor counts. -/
theorem C7_count_neighbors_shift_equivariant {m n : ℕ} (X : ZMod m → ZMod n → Bool)
    (a : ZMod m) (b : ZMod n) (i : ZMod m) (j : ZMod n) :
    _count_neighbors (fun p q => X (p + a) (q + b)) i j =
      _count_neighbors X (i + a) (j + b) := by
  rw [count_neighbors_eq_moore, count_neighbors_eq_moore]
  have em : ∀ z : ZMod m, ∀ d : ZMod m, (z + d) + a = (z + a) + d := by intro z d; ring
  have en : ∀ z : ZMod n, ∀ d : ZMod n, (z + d) + b = (z + b) + d := by intro z d; ring
  have em' : ∀ z : ZMod m, (z - 1) + a = (z + a) - 1 := by intro z; ring
  have en' : ∀ z : ZMod n, (z - 1) + b = (z + b) - 1 := by intro z; ring
  simp only [em, en, em', en']

/-- A character in the regex character class `[0-8]`. -/
def digit08 (ch : Char) : Bool := decide ('0' ≤ ch) && decide (ch ≤ '8')

/-- Truthiness of `re.compile("B([0-8]+)?/S([0-8]+)?").match(r)` in
`_parse_rulestring`.  Python's `re.match` anchors at the start of the string
only, so it succeeds iff some PREFIX of `r` matches the pattern.  Since the
class `[0-8]` never matches `'/'`, backtracking is deterministic: a prefix
matches iff the string starts with `'B'`, followed by a (possibly empty) run
of `[0-8]` characters, then `'/'` and `'S'` (the trailing optional group
`([0-8]+)?` can always match the empty string). -/
def rulestringMatch : List Char → Bool
  | b :: rest =>
    b == 'B' &&
      (match rest.dropWhile digit08 with
       | s1 :: s2 :: _ => s1 == '/' && s2 == 'S'
       | _ => false)
  | [] => false

/-- Python's `r.split("/")`: split the whole string at every `'/'`. -/
def splitOnSlash : List Char → List (List Char)
  | [] => [[]]
  | ch :: rest =>
    if ch = '/' then [] :: splitOnSlash rest
    else
      match splitOnSlash rest with
      | [] => [[ch]]
      | h :: t => (ch :: h) :: t

/-- The comprehension `[int(s) for s in part if s.isdigit()]`: the decimal
digit characters of `part`, each converted to its integer value.  Note that
this accepts any decimal digit (also `'9'`), without deduplication. -/
def extractDigits (l : List Char) : List ℕ :=
  (l.filter fun ch => ch.isDigit).map fun ch => ch.toNat - 48

/-- Errors raised by `_parse_rulestring` (both are Python `ValueError`s):
`invalidRulestring` is the explicitly raised, logged error naming the
offending string and the expected pattern; `unpackValueError` is the
uncaught unpacking error from `birth, survival = r.split("/")` when the
split yields more than two parts. -/
inductive RulestringError where
  | invalidRulestring
  | unpackValueError
  deriving DecidableEq

/-- `_parse_rulestring` from `rules.py`:
if the regex matches (a prefix of) `r`, split the whole string on `'/'`,
unpack into exactly two parts, and collect the digit characters of each
part; otherwise raise the `InvalidRulestring` `ValueError`. -/
def _parse_rulestring (r : String) : Except RulestringError (List ℕ × List ℕ) :=
  if rulestringMatch r.data then
    match splitOnSlash r.data with
    | [birth, survival] => .ok (extractDigits birth, extractDigits survival)
    | _ => .error .unpackValueError
  else .error .invalidRulestring

/-- Spec-side grammar check, following the spec's words: the WHOLE string
must match `B([0-8]+)?/S([0-8]+)?`; any deviation is a parse failure. -/
def rulestringFullMatch (r : String) : Bool :=
  match r.data with
  | b :: rest =>
    b == 'B' &&
      (match rest.dropWhile digit08 with
       | s1 :: s2 :: tail => s1 == '/' && s2 == 'S' && (tail.dropWhile digit08).isEmpty
       | _ => false)
  | [] => false

/-- `life_rule` from `rules.py`.  Parses the rulestring (a parse failure
propagates to the caller), computes the neighbor counts, then returns the
union of the birth mask `(X == 0) & np.isin(neighbors, birth_req)` and the
survival mask `(X == 1) & np.isin(neighbors, survival_req)`. -/
def life_rule {m n : ℕ} (X : ZMod m → ZMod n → Bool) (rulestring : String) :
    Except RulestringError (ZMod m → ZMod n → Bool) :=
  match _parse_rulestring rulestring with
  | .error e => .error e
  | .ok (birth_req, survival_req) =>
    .ok fun i j =>
      ((X i j == false) && decide (_count_neighbors X i j ∈ birth_req)) ||
      ((X i j == true) && decide (_count_neighbors X i j ∈ survival_req))

/-- `conway_classic` from `rules.py`: `life_rule` with rulestring B3/S23. -/
def conway_classic {m n : ℕ} (X : ZMod m → ZMod n → Bool) :
    Except RulestringError (ZMod m → ZMod n → Bool) :=
  life_rule X "B3/S23"

/-- C1: for every 0/1 grid `X` and every rulestring parsing to
`(birth_requirements, survival_requirements)`, `life_rule` returns a grid in
which a cell is alive exactly when it was dead and its toroidal Moore
neighbor count is a member of the birth requirements, or it was alive and
its count is a member of the survival requirements (all other cells are
dead); and `conway_classic X` equals `life_rule X "B3/S23"`. -/
theorem C1_life_rule_characterization {m n : ℕ} (X : ZMod m → ZMod n → Bool)
    (r : String) (birth survival : List ℕ)
    (hp : _parse_rulestring r = .ok (birth, survival)) :
    (∃ Y, life_rule X r = .ok Y ∧
      ∀ i j, Y i j = true ↔
        ((X i j = false ∧ _count_neighbors X i j ∈ birth) ∨
         (X i j = true ∧ _count_neighbors X i j ∈ survival))) ∧
    conway_classic X = life_rule X "B3/S23" := by
  have h : life_rule X r = .ok fun i j =>
      ((X i j == false) && decide (_count_neighbors X i j ∈ birth)) ||
      ((X i j == true) && decide (_count_neighbors X i j ∈ survival)) := by
    unfold life_rule
    rw [hp]
  refine ⟨⟨_, h, fun i j => ?_⟩, rfl⟩
  cases hx : X i j <;> simp [hx]

/-- Concrete 3×3 grid used to witness C1. -/
def witnessGrid1 : ZMod 3 → ZMod 3 → Bool := fun i j => decide (i = 1) && decide (j ≠ 2)

/-- Witness for C1 at the rulestring `"B3/S23"` and a concrete 3×3 grid. -/
theorem C1_life_rule_characterization_witness :
    (∃ Y, life_rule witnessGrid1 "B3/S23" = .ok Y ∧
      ∀ i j, Y i j = true ↔
        ((witnessGrid1 i j = false ∧ _count_neighbors witnessGrid1 i j ∈ [3]) ∨
         (witnessGrid1 i j = true ∧ _count_neighbors witnessGrid1 i j ∈ [2, 3]))) ∧
    conway_classic witnessGrid1 = life_rule witnessGrid1 "B3/S23" :=
  C1_life_rule_characterization witnessGrid1 "B3/S23" [3] [2, 3] rfl

lemma dropWhile_all_cons (ds : List Char) (c : Char) (l : List Char)
    (h : ∀ ch ∈ ds, digit08 ch = true) (hc : digit08 c = false) :
    (ds ++ c :: l).dropWhile digit08 = c :: l := by
  induction ds with
  | nil => simp [List.dropWhile_cons, hc]
  | cons a t ih =>
    have ha : digit08 a = true := h a (by simp)
    simp only [List.cons_append, List.dropWhile_cons, ha, if_true]
    exact ih fun ch hch => h ch (by simp [hch])

/-- C5 (amended): `_parse_rulestring` raises `InvalidRulestring` exactly for
the strings on which the regex fails to match a PREFIX (Python's `re.match`
does not anchor at the end), i.e. the strings not of the form
`'B'` + digits in `[0-8]` + `"/S"` + arbitrary tail; on a prefix match with
exactly one `'/'` in the whole string it returns the digit characters of the
two halves (so trailing garbage after the match is accepted verbatim); on a
prefix match with further `'/'` characters it raises a different, uncaught
unpacking `ValueError` instead.  The spec's concrete examples hold. -/
theorem C5_parse_rulestring_amended :
    (∀ r : String, rulestringMatch r.data = true ↔
      ∃ ds rest : List Char, r.data = 'B' :: (ds ++ '/' :: 'S' :: rest) ∧
        ∀ ch ∈ ds, digit08 ch = true) ∧
    (∀ r : String, _parse_rulestring r = .error .invalidRulestring ↔
      rulestringMatch r.data = false) ∧
    _parse_rulestring "B3/S23" = .ok ([3], [2, 3]) ∧
    _parse_rulestring "B/S" = .ok ([], []) ∧
    _parse_rulestring "XYZ" = .error .invalidRulestring ∧
    _parse_rulestring "B3/S23X" = .ok ([3], [2, 3]) ∧
    _parse_rulestring "B3/S2/3" = .error .unpackValueError := by
  refine ⟨?_, ?_, rfl, rfl, rfl, rfl, rfl⟩
  · intro r
    constructor
    · intro h
      rcases hl : r.data with _ | ⟨b, rest⟩
      · rw [hl] at h
        simp [rulestringMatch] at h
      · rw [hl] at h
        rcases hdw : rest.dropWhile digit08 with _ | ⟨s1, _ | ⟨s2, tl⟩⟩ <;>
          simp only [rulestringMatch, hdw, Bool.and_eq_true, beq_iff_eq,
            Bool.false_eq_true, and_false] at h
        obtain ⟨hb, h1, h2⟩ := h
        refine ⟨rest.takeWhile digit08, tl, ?_, fun ch hch => List.mem_takeWhile_imp hch⟩
        subst hb h1 h2
        rw [← hdw, List.takeWhile_append_dropWhile]
    · rintro ⟨ds, rest, hshape, hds⟩
      rw [hshape]
      simp only [rulestringMatch, beq_self_eq_true, Bool.true_and]
      rw [dropWhile_all_cons ds '/' ('S' :: rest) hds (by decide)]
      simp
  · intro r
    rcases hb : rulestringMatch r.data
    · simp [_parse_rulestring, hb]
    · simp only [_parse_rulestring, hb, if_true]
      split <;> simp

/-- C5 counterexample: `"B3/S23X"` deviates from the full grammar
`B([0-8]+)?/S([0-8]+)?` (the trailing `X` matches nothing), yet
`_parse_rulestring` does not raise: `re.match` only anchors at the start, so
the call succeeds and returns `([3], [2, 3])`. -/
theorem C5_full_grammar_counterexample :
    rulestringFullMatch "B3/S23X" = false ∧
    _parse_rulestring "B3/S23X" = .ok ([3], [2, 3]) := ⟨rfl, rfl⟩

/-- Numeric value of a numpy boolean when compared against a list of Python
integers by `np.isin` (`True == 1`, `False == 0`). -/
def boolAsInt (b : Bool) : ℤ := if b then 1 else 0

/-- `rps_life_rule` from `rules.py` on a stack of `N` boolean state layers.

The code allocates `neighbors = np.zeros_like(X)`; since the state stack `X`
is a BOOLEAN array (the `MultiStateBoard` state has `dtype=bool`), the
assignment `neighbors[state] = _count_neighbors(X[state])` casts each exact
neighbor count to a boolean, storing only whether it is nonzero.  The layer
indices: `X[state - 1]` uses Python negative indexing (`-1` is the last
layer), and `(state + 1) % len(X)` wraps explicitly.  All output layers are
written into the fresh array `updated`, so every layer is computed from the
same input snapshot. -/
def rps_life_rule (N : ℕ) {m n : ℕ} (X : Fin N → ZMod m → ZMod n → Bool)
    (cycle_thresholds : List ℤ) : Fin N → ZMod m → ZMod n → Bool :=
  let neighbors : Fin N → ZMod m → ZMod n → Bool :=
    fun s i j => decide (0 < _count_neighbors (X s) i j)
  fun s i j =>
    let pred : Fin N := ⟨(s.val + N - 1) % N, Nat.mod_lt _ s.pos⟩
    let succ : Fin N := ⟨(s.val + 1) % N, Nat.mod_lt _ s.pos⟩
    let cycles_in := (X pred i j == true) &&
      decide (boolAsInt (neighbors s i j) ∈ cycle_thresholds)
    let cycles_out := decide (boolAsInt (neighbors succ i j) ∈ cycle_thresholds)
    ((X s i j == true) && !cycles_out) || cycles_in

/-- Spec-side next-generation membership for the cyclic rule, following the
claim's words: a cell belongs to state `s` in the output exactly when it is
currently in `s` and its count of state-`(s+1) mod N` neighbors is not in
the thresholds, or it is currently in the predecessor state `(s-1) mod N`
and its count of state-`s` neighbors is in the thresholds. -/
def rps_claim_membership (N : ℕ) {m n : ℕ} (X : Fin N → ZMod m → ZMod n → Bool)
    (cycle_thresholds : List ℤ) : Fin N → ZMod m → ZMod n → Bool :=
  fun s i j =>
    let pred : Fin N := ⟨(s.val + N - 1) % N, Nat.mod_lt _ s.pos⟩
    let succ : Fin N := ⟨(s.val + 1) % N, Nat.mod_lt _ s.pos⟩
    (X s i j &&
      !(decide ((_count_neighbors (X succ) i j : ℤ) ∈ cycle_thresholds))) ||
    (X pred i j &&
      decide ((_count_neighbors (X s) i j : ℤ) ∈ cycle_thresholds))

/-- Concrete 3-state one-hot 4×4 boolean stack: the cells `(0,1)`, `(1,0)`
and `(1,1)` are in state 1, every other cell is in state 0. -/
def rpsBugStack : Fin 3 → ZMod 4 → ZMod 4 → Bool := fun s i j =>
  if (i = 0 ∧ j = 1) ∨ (i = 1 ∧ j = 0) ∨ (i = 1 ∧ j = 1) then decide (s = 1)
  else decide (s = 0)

/-- C4 evidence: on a boolean one-hot stack the cell `(0, 0)` is in state 0
and has exactly 3 state-1 neighbors, so with `cycle_thresholds = [3]` the
claim says it cycles into state 1; but `rps_life_rule` stores the neighbor
counts in a boolean `np.zeros_like` array, truncating the count 3 to
`True = 1`, and `np.isin(1, [3])` is false, so the code leaves the cell out
of state 1. -/
theorem C4_rps_threshold_truncation :
    (_count_neighbors (rpsBugStack 1) 0 0 = 3) ∧
    rps_life_rule 3 rpsBugStack [3] 1 0 0 = false ∧
    rps_claim_membership 3 rpsBugStack [3] 1 0 0 = true := by
  refine ⟨by decide, by decide, by decide⟩

/-- The error raised by a failing numpy slice assignment in `Board.add` /
`MultiStateBoard.add` (a broadcasting `ValueError`, caught, logged as
"Lifeform is out-of-bounds!" and re-raised). -/
inductive PlaceError where
  | outOfBounds
  deriving DecidableEq

/-- Python slice-index normalisation for an axis of length `len`: a negative
index counts from the end, and the result is clipped into `[0, len]`. -/
def normIdx (len : ℕ) (a : ℤ) : ℕ :=
  if a < 0 then (a + len).toNat
  else if a ≤ (len : ℤ) then a.toNat
  else len

/-- Numpy basic-slicing assignment
`target[r : r + h, c : c + w] = src` on an array of shape `(rows, cols)`,
where `src` has shape `(h, w)`.  The slice bounds are normalised and clipped
per axis; the assignment broadcasts `src` over the clipped window, which
numpy accepts exactly when each source dimension equals the window extent or
equals `1` (a length-1 source axis is repeated, also over an empty window).
Otherwise numpy raises a broadcasting `ValueError` before writing anything,
so on failure the target is returned unmodified by the caller. -/
def sliceAssign2D (rows cols : ℕ) (target src : ℕ → ℕ → Bool) (h w : ℕ) (r c : ℤ) :
    Except PlaceError (ℕ → ℕ → Bool) :=
  let r0 := normIdx rows r
  let r1 := normIdx rows (r + h)
  let c0 := normIdx cols c
  let c1 := normIdx cols (c + w)
  if (h = r1 - r0 ∨ h = 1) ∧ (w = c1 - c0 ∨ w = 1) then
    .ok fun i j =>
      if r0 ≤ i ∧ i < r1 ∧ c0 ≤ j ∧ j < c1 then
        src (if h = 1 then 0 else i - r0) (if w = 1 then 0 else j - c0)
      else target i j
  else .error .outOfBounds

/-- `Board.add` from `board.py`:
`self.state[row : row + height, col : col + width] = lifeform.layout`, with
the broadcasting `ValueError` logged and re-raised, the board state left
untouched in that case. -/
def Board.add (rows cols : ℕ) (state : ℕ → ℕ → Bool) (layout : ℕ → ℕ → Bool)
    (height width : ℕ) (row col : ℤ) : Except PlaceError (ℕ → ℕ → Bool) :=
  sliceAssign2D rows cols state layout height width row col

/-- `MultiStateBoard.__init__`: `state = np.zeros((states, rows, cols))`
followed by `state[0] = True` — every cell is in state 0. -/
def MultiStateBoard.init (states rows cols : ℕ) : ℕ → ℕ → ℕ → Bool :=
  fun s _ _ => s == 0

/-- `MultiStateBoard.clear`: `self.state = np.zeros(self.size, dtype=bool)`.
Unlike `__init__`, layer 0 is NOT set back to `True`. -/
def MultiStateBoard.clear (states rows cols : ℕ) : ℕ → ℕ → ℕ → Bool :=
  fun _ _ _ => false

/-- `MultiStateBoard.add` from `board.py`.  Returns the pair of
(was the "Lifeform has an invalid state" error logged?, placement outcome).
The code only logs when `state >= self.size[0]` — there is no lower-bound
check — and then proceeds regardless: it stamps the layout into a fresh
zero mask via the same slice assignment as `Board.add` (re-raising the
broadcasting `ValueError` on failure with the board untouched), and on
success sets, for every layer `s`, the masked cells to `s == state`. -/
def MultiStateBoard.add (states rows cols : ℕ) (st : ℕ → ℕ → ℕ → Bool)
    (layout : ℕ → ℕ → Bool) (height width : ℕ) (row col : ℤ) (state : ℤ) :
    Bool × Except PlaceError (ℕ → ℕ → ℕ → Bool) :=
  let logged := decide ((states : ℤ) ≤ state)
  match sliceAssign2D rows cols (fun _ _ => false) layout height width row col with
  | .error e => (logged, .error e)
  | .ok mask =>
    (logged, .ok fun s i j => if mask i j then decide ((s : ℤ) = state) else st s i j)

/-- Sum of a cell's values across the state axis. -/
def stateAxisSum (states : ℕ) (st : ℕ → ℕ → ℕ → Bool) (i j : ℕ) : ℕ :=
  ∑ s ∈ Finset.range states, cellVal (st s i j)

/-- The one-hot invariant of a `MultiStateBoard` of shape
`(states, rows, cols)`: at every cell position exactly one state layer is
true, i.e. the sum across the state axis is exactly 1. -/
def oneHot (states rows cols : ℕ) (st : ℕ → ℕ → ℕ → Bool) : Prop :=
  ∀ i < rows, ∀ j < cols, stateAxisSum states st i j = 1

/-- C3 evidence: the one-hot invariant holds after initialization (every
cell in state 0), but `MultiStateBoard.clear` resets ALL layers to `False`
without restoring layer 0, so after `clear()` the state-axis sum of every
cell is 0, not 1 — the invariant is not preserved by `clear`. -/
theorem C3_clear_breaks_one_hot :
    oneHot 3 2 2 (MultiStateBoard.init 3 2 2) ∧
    ¬ oneHot 3 2 2 (MultiStateBoard.clear 3 2 2) := by
  constructor
  · intro i _ j _
    simp [stateAxisSum, MultiStateBoard.init, Finset.sum_range_succ, cellVal]
  · intro hcon
    have := hcon 0 (by omega) 0 (by omega)
    simp [stateAxisSum, MultiStateBoard.clear, Finset.sum_range_succ, cellVal] at this

/-- On an axis where the anchored footprint sticks out past the end
(`len < a + sz`), numpy's broadcast of the source axis (length `sz`) onto
the clipped slice fails — except in the silent case `sz = 1` with the
anchor at or past the end, which broadcasts onto an empty slice. -/
lemma axis_broadcast_fails (len sz : ℕ) (a : ℤ) (hlen : 1 ≤ len) (hsz : 1 ≤ sz)
    (hex : (len : ℤ) < a + sz) (hnot : ¬(sz = 1 ∧ (len : ℤ) ≤ a)) :
    ¬(sz = normIdx len (a + sz) - normIdx len a ∨ sz = 1) := by
  unfold normIdx
  split_ifs <;> omega

lemma sliceAssign2D_error (rows cols : ℕ) (target src : ℕ → ℕ → Bool)
    (h w : ℕ) (r c : ℤ)
    (hfail : ¬((h = normIdx rows (r + h) - normIdx rows r ∨ h = 1) ∧
               (w = normIdx cols (c + w) - normIdx cols c ∨ w = 1))) :
    sliceAssign2D rows cols target src h w r c = .error .outOfBounds := by
  simp only [sliceAssign2D]
  rw [if_neg hfail]

/-- C6 (amended): whenever `location + pattern.size` exceeds `grid.size` in
some axis AND that exceeding axis is not the silent case of a length-1
pattern axis anchored at or past the grid edge (where numpy broadcasts onto
an empty slice and silently writes nothing), both `Board.add` and
`MultiStateBoard.add` raise the out-of-bounds `ValueError` before anything
is written, so the grid state is exactly what it was before the call. -/
theorem C6_add_out_of_bounds_amended (rows cols height width states : ℕ)
    (state : ℕ → ℕ → Bool) (mst : ℕ → ℕ → ℕ → Bool) (layout : ℕ → ℕ → Bool)
    (row col stateIdx : ℤ)
    (hrows : 1 ≤ rows) (hcols : 1 ≤ cols) (hh : 1 ≤ height) (hw : 1 ≤ width)
    (hex : ((rows : ℤ) < row + height ∧ ¬(height = 1 ∧ (rows : ℤ) ≤ row)) ∨
           ((cols : ℤ) < col + width ∧ ¬(width = 1 ∧ (cols : ℤ) ≤ col))) :
    Board.add rows cols state layout height width row col = .error .outOfBounds ∧
    (MultiStateBoard.add states rows cols mst layout height width row col stateIdx).2 =
      .error .outOfBounds := by
  have hfail : ¬((height = normIdx rows (row + height) - normIdx rows row ∨ height = 1) ∧
      (width = normIdx cols (col + width) - normIdx cols col ∨ width = 1)) := by
    rcases hex with ⟨h1, h2⟩ | ⟨h1, h2⟩
    · intro hc; exact axis_broadcast_fails rows height row hrows hh h1 h2 hc.1
    · intro hc; exact axis_broadcast_fails cols width col hcols hw h1 h2 hc.2
  refine ⟨sliceAssign2D_error rows cols state layout height width row col hfail, ?_⟩
  have hsl := sliceAssign2D_error rows cols (fun _ _ => false) layout height width row col hfail
  simp only [MultiStateBoard.add, hsl]

/-- Concrete board used in counterexamples and witnesses. -/
def cgrid : ℕ → ℕ → Bool := fun i j => (i + j) % 2 == 0

/-- Concrete all-alive lifeform layout. -/
def clayout : ℕ → ℕ → Bool := fun _ _ => true

/-- Witness for the amended C6: a 2×2 pattern anchored at row 2 on a 3×3
board exceeds the bottom edge and the call errors out for both board
flavours. -/
theorem C6_add_out_of_bounds_amended_witness :
    Board.add 3 3 cgrid clayout 2 2 2 0 = .error .outOfBounds ∧
    (MultiStateBoard.add 2 3 3 (MultiStateBoard.init 2 3 3) clayout 2 2 2 0 0).2 =
      .error .outOfBounds :=
  C6_add_out_of_bounds_amended 3 3 2 2 2 cgrid (MultiStateBoard.init 2 3 3) clayout 2 0 0
    (by omega) (by omega) (by omega) (by omega) (by omega)

/-- C6 counterexample: a 1×1 pattern anchored at `loc = (3, 0)` on a 3×3
grid has `location + pattern.size = 4 > 3` in the row axis, yet `Board.add`
raises nothing: the row slice `[3:4]` clips to the empty slice and the
length-1 source axis broadcasts over it, so the call silently succeeds and
writes nothing. -/
theorem C6_silent_out_of_bounds_counterexample :
    Board.add 3 3 cgrid clayout 1 1 3 0 = .ok cgrid := by
  have hdef : Board.add 3 3 cgrid clayout 1 1 3 0 =
      .ok fun i j => if 3 ≤ i ∧ i < 3 ∧ 0 ≤ j ∧ j < 1 then clayout 0 0 else cgrid i j := rfl
  rw [hdef]
  congr 1
  funext i j
  rw [if_neg (by omega)]

/-- C8 counterexample: the state index `-1` is outside `[0, states)`, but
`MultiStateBoard.add` only checks `state >= self.size[0]`, so nothing is
logged for a negative state index. -/
theorem C8_negative_state_not_logged :
    (MultiStateBoard.add 2 2 2 (MultiStateBoard.init 2 2 2) clayout 1 1 0 0 (-1)).1 =
      false := rfl

/-- C8 (amended): `MultiStateBoard.add` logs the `InvalidState` condition
exactly when `state >= states`; a negative state index passes the check
silently.  In either invalid case the method still proceeds to attempt the
placement, and (since no layer index can equal the invalid target) every
cell of the resulting board is either left unchanged or cleared to `False`
in all layers — nothing is ever set. -/
theorem C8_invalid_state_amended (states rows cols : ℕ) (st : ℕ → ℕ → ℕ → Bool)
    (layout : ℕ → ℕ → Bool) (height width : ℕ) (row col state : ℤ)
    (hinv : state < 0 ∨ (states : ℤ) ≤ state) :
    ((MultiStateBoard.add states rows cols st layout height width row col state).1 =
      decide ((states : ℤ) ≤ state)) ∧
    (∀ g, (MultiStateBoard.add states rows cols st layout height width row col state).2 =
        .ok g →
      ∀ s < states, ∀ i j, g s i j = false ∨ g s i j = st s i j) := by
  constructor
  · rcases hsl : sliceAssign2D rows cols (fun _ _ => false) layout height width row col with
      e | mask <;> simp [MultiStateBoard.add, hsl]
  · intro g hg s hs i j
    rcases hsl : sliceAssign2D rows cols (fun _ _ => false) layout height width row col with
      e | mask
    · rw [MultiStateBoard.add, hsl] at hg
      simp at hg
    · rw [MultiStateBoard.add, hsl] at hg
      simp only [Except.ok.injEq] at hg
      subst hg
      by_cases hm : mask i j
      · left
        simp only [hm, if_true]
        have : ¬((s : ℤ) = state) := by omega
        simp [this]
      · right
        simp [hm]

/-- Witness for the amended C8 at the concrete negative state index `-1`. -/
theorem C8_invalid_state_amended_witness :
    (((MultiStateBoard.add 2 2 2 (MultiStateBoard.init 2 2 2) clayout 1 1 0 0 (-1)).1 =
      decide ((2 : ℤ) ≤ (-1 : ℤ))) ∧
    (∀ g, (MultiStateBoard.add 2 2 2 (MultiStateBoard.init 2 2 2) clayout 1 1 0 0 (-1)).2 =
        .ok g →
      ∀ s < 2, ∀ i j, g s i j = false ∨ g s i j = MultiStateBoard.init 2 2 2 s i j)) :=
  C8_invalid_state_amended 2 2 2 (MultiStateBoard.init 2 2 2) clayout 1 1 0 0 (-1)
    (by omega)

/-- C10 counterexample: `row = -2` with `height = 2` satisfies the claim's
condition `row + height <= 0` on a 3×3 board, yet the call DOES raise: the
row slice `[-2:0]` normalises to the empty slice `[1:0]`, broadcasting the
2-row layout onto it fails, and `Board.add` raises the out-of-bounds
`ValueError` instead of writing at the end-relative position. -/
theorem C10_negative_anchor_boundary_counterexample :
    Board.add 3 3 cgrid clayout 2 2 (-2) 0 = .error .outOfBounds := rfl

/-- C10 (amended): for a negative anchor with `row + height < 0` (strictly,
so that the normalised stop index stays positive) and `rows + row >= 0`
(and analogously for the column axis), `Board.add` raises no error and
silently writes the layout at the end-relative block starting at
`(rows + row, cols + col)`, leaving every cell outside that block
unchanged — the placement wraps to the opposite edge instead of being
rejected as out of bounds. -/
theorem C10_negative_anchor_amended (rows cols height width : ℕ)
    (state layout : ℕ → ℕ → Bool) (row col : ℤ)
    (hh : 1 ≤ height) (hw : 1 ≤ width)
    (hr : row + height < 0) (hc : col + width < 0)
    (hr2 : 0 ≤ (rows : ℤ) + row) (hc2 : 0 ≤ (cols : ℤ) + col) :
    ∃ g, Board.add rows cols state layout height width row col = .ok g ∧
      (∀ i j, i < height → j < width →
        g (((rows : ℤ) + row).toNat + i) (((cols : ℤ) + col).toNat + j) = layout i j) ∧
      (∀ p q, (p < ((rows : ℤ) + row).toNat ∨ ((rows : ℤ) + row).toNat + height ≤ p ∨
               q < ((cols : ℤ) + col).toNat ∨ ((cols : ℤ) + col).toNat + width ≤ q) →
        g p q = state p q) := by
  have hrow0 : normIdx rows row = ((rows : ℤ) + row).toNat := by
    unfold normIdx; split_ifs <;> omega
  have hrow1 : normIdx rows (row + height) = ((rows : ℤ) + row).toNat + height := by
    unfold normIdx; split_ifs <;> omega
  have hcol0 : normIdx cols col = ((cols : ℤ) + col).toNat := by
    unfold normIdx; split_ifs <;> omega
  have hcol1 : normIdx cols (col + width) = ((cols : ℤ) + col).toNat + width := by
    unfold normIdx; split_ifs <;> omega
  have hcond : ((height = normIdx rows (row + height) - normIdx rows row ∨ height = 1) ∧
      (width = normIdx cols (col + width) - normIdx cols col ∨ width = 1)) := by
    rw [hrow0, hrow1, hcol0, hcol1]
    omega
  refine ⟨fun i j =>
      if normIdx rows row ≤ i ∧ i < normIdx rows (row + height) ∧
         normIdx cols col ≤ j ∧ j < normIdx cols (col + width) then
        layout (if height = 1 then 0 else i - normIdx rows row)
               (if width = 1 then 0 else j - normIdx cols col)
      else state i j, ?_, ?_, ?_⟩
  · simp only [Board.add, sliceAssign2D]
    rw [if_pos hcond]
  · intro i j hi hj
    rw [hrow0, hrow1, hcol0, hcol1]
    dsimp only
    rw [if_pos (by omega)]
    congr 1 <;> split_ifs <;> omega
  · intro p q hout
    rw [hrow0, hrow1, hcol0, hcol1]
    dsimp only
    rw [if_neg (by omega)]

/-- Witness for the amended C10: a 2×2 layout anchored at `(-3, -3)` on a
4×4 board is silently written at the end-relative block starting `(1, 1)`. -/
theorem C10_negative_anchor_amended_witness :
    ∃ g, Board.add 4 4 cgrid clayout 2 2 (-3) (-3) = .ok g ∧
      (∀ i j, i < 2 → j < 2 →
        g (((4 : ℤ) + (-3 : ℤ)).toNat + i) (((4 : ℤ) + (-3 : ℤ)).toNat + j) = clayout i j) ∧
      (∀ p q, (p < ((4 : ℤ) + (-3 : ℤ)).toNat ∨ ((4 : ℤ) + (-3 : ℤ)).toNat + 2 ≤ p ∨
               q < ((4 : ℤ) + (-3 : ℤ)).toNat ∨ ((4 : ℤ) + (-3 : ℤ)).toNat + 2 ≤ q) →
        g p q = cgrid p q) :=
  C10_negative_anchor_amended 4 4 2 2 cgrid clayout (-3) (-3)
    (by omega) (by omega) (by omega) (by omega) (by omega) (by omega)

/-- The twelve positions surrounding a 2×2 block (offsets relative to the
block's top-left cell): the block's toroidal neighbor ring. -/
def haloOffsets : List (ℤ × ℤ) :=
  [(-1,-1), (-1,0), (-1,1), (-1,2), (0,-1), (0,2), (1,-1), (1,2),
   (2,-1), (2,0), (2,1), (2,2)]

/-- Indicator that the offset pair `(u, v)` lies inside the 2×2 block
anchored at offset `(0, 0)`. -/
def blockInd (m n : ℕ) (u : ZMod m) (v : ZMod n) : ℕ :=
  if (u = 0 ∨ u = 1) ∧ (v = 0 ∨ v = 1) then 1 else 0

section RingNumerals

variable {R : Type} [CommRing R]

lemma rn_neg_one_eq_zero_iff : ((-1 : R) = 0) ↔ ((1 : R) = 0) := by
  rw [neg_eq_zero]

lemma rn_neg_two_eq_zero_iff : ((-2 : R) = 0) ↔ ((2 : R) = 0) := by
  rw [neg_eq_zero]

lemma rn_neg_one_eq_one_iff : ((-1 : R) = 1) ↔ ((2 : R) = 0) := by
  rw [← sub_eq_zero, show ((-1 : R) - 1) = -2 by ring, neg_eq_zero]

lemma rn_neg_two_eq_one_iff : ((-2 : R) = 1) ↔ ((3 : R) = 0) := by
  rw [← sub_eq_zero, show ((-2 : R) - 1) = -3 by ring, neg_eq_zero]

lemma rn_zero_eq_one_iff : ((0 : R) = 1) ↔ ((1 : R) = 0) := by
  rw [← sub_eq_zero, show ((0 : R) - 1) = -1 by ring, neg_eq_zero]

lemma rn_two_eq_one_iff : ((2 : R) = 1) ↔ ((1 : R) = 0) := by
  rw [← sub_eq_zero, show ((2 : R) - 1) = 1 by ring]

lemma rn_three_eq_one_iff : ((3 : R) = 1) ↔ ((2 : R) = 0) := by
  rw [← sub_eq_zero, show ((3 : R) - 1) = 2 by ring]

end RingNumerals

/-- C9: every grid whose live cells are exactly one 2×2 block, with the
twelve toroidal neighbor positions surrounding the block all dead, is a
fixed point of `conway_classic` — the block is a still-life. -/
theorem C9_block_still_life {m n : ℕ} (X : ZMod m → ZMod n → Bool)
    (r : ZMod m) (c : ZMod n)
    (hX : ∀ i j, X i j = true ↔ ((i = r ∨ i = r + 1) ∧ (j = c ∨ j = c + 1)))
    (hHalo : ∀ p ∈ haloOffsets, X (r + ((p.1 : ℤ) : ZMod m)) (c + ((p.2 : ℤ) : ZMod n)) = false) :
    conway_classic X = .ok X := by
  have hXc : ∀ (u : ZMod m) (v : ZMod n),
      X (r + u) (c + v) = true ↔ ((u = 0 ∨ u = 1) ∧ (v = 0 ∨ v = 1)) := by
    intro u v
    rw [hX]
    have h1 : (r + u = r) ↔ u = 0 := by
      constructor
      · intro h; exact add_left_cancel (a := r) (by rw [h, add_zero])
      · intro h; rw [h, add_zero]
    have h2 : (r + u = r + 1) ↔ u = 1 := add_right_inj r
    have h3 : (c + v = c) ↔ v = 0 := by
      constructor
      · intro h; exact add_left_cancel (a := c) (by rw [h, add_zero])
      · intro h; rw [h, add_zero]
    have h4 : (c + v = c + 1) ↔ v = 1 := add_right_inj c
    rw [h1, h2, h3, h4]
  have hXd : ∀ (u : ZMod m) (v : ZMod n),
      X (r + u) (c + v) = decide ((u = 0 ∨ u = 1) ∧ (v = 0 ∨ v = 1)) := by
    intro u v
    by_cases hP : ((u = 0 ∨ u = 1) ∧ (v = 0 ∨ v = 1))
    · simp [(hXc u v).mpr hP, hP]
    · have hne : X (r + u) (c + v) = false := by
        cases hx : X (r + u) (c + v)
        · rfl
        · exact absurd ((hXc u v).mp hx) hP
      simp [hne, hP]
  have hm1 : ¬((1 : ZMod m) = 0) := by
    intro h
    have hfalse := hHalo (-1, 0) (by simp [haloOffsets])
    have htrue : X (r + (((-1 : ℤ) : ℤ) : ZMod m)) (c + (((0 : ℤ) : ℤ) : ZMod n)) = true := by
      rw [hXc]
      refine ⟨Or.inl ?_, Or.inl ?_⟩
      · push_cast
        rw [rn_neg_one_eq_zero_iff]
        exact h
      · push_cast
        rfl
    rw [hfalse] at htrue
    exact Bool.false_ne_true htrue
  have hm2 : ¬((2 : ZMod m) = 0) := by
    intro h
    have hfalse := hHalo (-1, 0) (by simp [haloOffsets])
    have htrue : X (r + (((-1 : ℤ) : ℤ) : ZMod m)) (c + (((0 : ℤ) : ℤ) : ZMod n)) = true := by
      rw [hXc]
      refine ⟨Or.inr ?_, Or.inl ?_⟩
      · push_cast
        rw [rn_neg_one_eq_one_iff]
        exact h
      · push_cast
        rfl
    rw [hfalse] at htrue
    exact Bool.false_ne_true htrue
  have hn1 : ¬((1 : ZMod n) = 0) := by
    intro h
    have hfalse := hHalo (0, -1) (by simp [haloOffsets])
    have htrue : X (r + (((0 : ℤ) : ℤ) : ZMod m)) (c + (((-1 : ℤ) : ℤ) : ZMod n)) = true := by
      rw [hXc]
      refine ⟨Or.inl ?_, Or.inl ?_⟩
      · push_cast
        rfl
      · push_cast
        rw [rn_neg_one_eq_zero_iff]
        exact h
    rw [hfalse] at htrue
    exact Bool.false_ne_true htrue
  have hn2 : ¬((2 : ZMod n) = 0) := by
    intro h
    have hfalse := hHalo (0, -1) (by simp [haloOffsets])
    have htrue : X (r + (((0 : ℤ) : ℤ) : ZMod m)) (c + (((-1 : ℤ) : ℤ) : ZMod n)) = true := by
      rw [hXc]
      refine ⟨Or.inl ?_, Or.inr ?_⟩
      · push_cast
        rfl
      · push_cast
        rw [rn_neg_one_eq_one_iff]
        exact h
    rw [hfalse] at htrue
    exact Bool.false_ne_true htrue
  have hcell : ∀ (u : ZMod m) (v : ZMod n), cellVal (X (r + u) (c + v)) = blockInd m n u v := by
    intro u v
    rw [hXd, blockInd]
    by_cases hP : ((u = 0 ∨ u = 1) ∧ (v = 0 ∨ v = 1)) <;> simp [hP, cellVal]
  have hcount : ∀ (u : ZMod m) (v : ZMod n), _count_neighbors X (r + u) (c + v) =
      blockInd m n (u - 1) (v - 1) + blockInd m n (u - 1) v + blockInd m n (u - 1) (v + 1) +
      blockInd m n u (v - 1) + blockInd m n u (v + 1) +
      blockInd m n (u + 1) (v - 1) + blockInd m n (u + 1) v + blockInd m n (u + 1) (v + 1) := by
    intro u v
    rw [count_neighbors_eq_moore]
    rw [show r + u - 1 = r + (u - 1) by ring, show r + u + 1 = r + (u + 1) by ring,
        show c + v - 1 = c + (v - 1) by ring, show c + v + 1 = c + (v + 1) by ring]
    rw [hcell, hcell, hcell, hcell, hcell, hcell, hcell, hcell]
  have hrule : conway_classic X = .ok fun i j =>
      ((X i j == false) && decide (_count_neighbors X i j ∈ [3])) ||
      ((X i j == true) && decide (_count_neighbors X i j ∈ [2, 3])) := rfl
  rw [hrule]
  congr 1
  funext i j
  obtain ⟨u, rfl⟩ : ∃ u, i = r + u := ⟨i - r, by ring⟩
  obtain ⟨v, rfl⟩ : ∃ v, j = c + v := ⟨j - c, by ring⟩
  have zm1 : ((-1 : ZMod m) - 1) = -2 := by ring
  have zm2 : ((-1 : ZMod m) + 1) = 0 := by ring
  have zm3 : ((0 : ZMod m) - 1) = -1 := by ring
  have zm4 : ((0 : ZMod m) + 1) = 1 := by ring
  have zm5 : ((1 : ZMod m) - 1) = 0 := by ring
  have zm6 : ((1 : ZMod m) + 1) = 2 := by ring
  have zm7 : ((2 : ZMod m) - 1) = 1 := by ring
  have zm8 : ((2 : ZMod m) + 1) = 3 := by ring
  have zn1 : ((-1 : ZMod n) - 1) = -2 := by ring
  have zn2 : ((-1 : ZMod n) + 1) = 0 := by ring
  have zn3 : ((0 : ZMod n) - 1) = -1 := by ring
  have zn4 : ((0 : ZMod n) + 1) = 1 := by ring
  have zn5 : ((1 : ZMod n) - 1) = 0 := by ring
  have zn6 : ((1 : ZMod n) + 1) = 2 := by ring
  have zn7 : ((2 : ZMod n) - 1) = 1 := by ring
  have zn8 : ((2 : ZMod n) + 1) = 3 := by ring
  by_cases hu : u = -1 ∨ u = 0 ∨ u = 1 ∨ u = 2
  · by_cases hv : v = -1 ∨ v = 0 ∨ v = 1 ∨ v = 2
    · rcases hu with rfl | rfl | rfl | rfl <;> rcases hv with rfl | rfl | rfl | rfl <;>
        by_cases h3m : ((3 : ZMod m) = 0) <;> by_cases h3n : ((3 : ZMod n) = 0) <;>
        · rw [hcount, hXd]
          simp only [zm1, zm2, zm3, zm4, zm5, zm6, zm7, zm8,
            zn1, zn2, zn3, zn4, zn5, zn6, zn7, zn8]
          simp [blockInd, rn_neg_one_eq_zero_iff, rn_neg_two_eq_zero_iff,
            rn_neg_one_eq_one_iff, rn_neg_two_eq_one_iff, rn_zero_eq_one_iff,
            rn_two_eq_one_iff, rn_three_eq_one_iff, hm1, hm2, hn1, hn2, h3m, h3n]
    · have hbv : ∀ (b : ZMod n), (b = v - 1 ∨ b = v ∨ b = v + 1) → ¬(b = 0 ∨ b = 1) := by
        rintro b (rfl | rfl | rfl) (h1 | h1)
        · exact hv (by right; right; left; linear_combination h1)
        · exact hv (by right; right; right; linear_combination h1)
        · exact hv (by right; left; exact h1)
        · exact hv (by right; right; left; exact h1)
        · exact hv (by left; linear_combination h1)
        · exact hv (by right; left; linear_combination h1)
      have hz : ∀ (a : ZMod m) (b : ZMod n), (b = v - 1 ∨ b = v ∨ b = v + 1) →
          blockInd m n a b = 0 := fun a b hb =>
        if_neg fun hcond => hbv b hb hcond.2
      have hcnt0 : _count_neighbors X (r + u) (c + v) = 0 := by
        rw [hcount u v,
          hz (u - 1) (v - 1) (Or.inl rfl), hz (u - 1) v (Or.inr (Or.inl rfl)),
          hz (u - 1) (v + 1) (Or.inr (Or.inr rfl)), hz u (v - 1) (Or.inl rfl),
          hz u (v + 1) (Or.inr (Or.inr rfl)), hz (u + 1) (v - 1) (Or.inl rfl),
          hz (u + 1) v (Or.inr (Or.inl rfl)), hz (u + 1) (v + 1) (Or.inr (Or.inr rfl))]
      have hx0 : X (r + u) (c + v) = false := by
        rw [hXd]
        have : ¬((u = 0 ∨ u = 1) ∧ (v = 0 ∨ v = 1)) := fun hcond =>
          hbv v (Or.inr (Or.inl rfl)) hcond.2
        simp [this]
      rw [hcnt0, hx0]
      decide
  · have hbu : ∀ (a : ZMod m), (a = u - 1 ∨ a = u ∨ a = u + 1) → ¬(a = 0 ∨ a = 1) := by
      rintro a (rfl | rfl | rfl) (h1 | h1)
      · exact hu (by right; right; left; linear_combination h1)
      · exact hu (by right; right; right; linear_combination h1)
      · exact hu (by right; left; exact h1)
      · exact hu (by right; right; left; exact h1)
      · exact hu (by left; linear_combination h1)
      · exact hu (by right; left; linear_combination h1)
    have hz : ∀ (a : ZMod m) (b : ZMod n), (a = u - 1 ∨ a = u ∨ a = u + 1) →
        blockInd m n a b = 0 := fun a b ha =>
      if_neg fun hcond => hbu a ha hcond.1
    have hcnt0 : _count_neighbors X (r + u) (c + v) = 0 := by
      rw [hcount u v,
        hz (u - 1) (v - 1) (Or.inl rfl), hz (u - 1) v (Or.inl rfl),
        hz (u - 1) (v + 1) (Or.inl rfl), hz u (v - 1) (Or.inr (Or.inl rfl)),
        hz u (v + 1) (Or.inr (Or.inl rfl)), hz (u + 1) (v - 1) (Or.inr (Or.inr rfl)),
        hz (u + 1) v (Or.inr (Or.inr rfl)), hz (u + 1) (v + 1) (Or.inr (Or.inr rfl))]
    have hx0 : X (r + u) (c + v) = false := by
      rw [hXd]
      have : ¬((u = 0 ∨ u = 1) ∧ (v = 0 ∨ v = 1)) := fun hcond =>
        hbu u (Or.inr (Or.inl rfl)) hcond.1
      simp [this]
    rw [hcnt0, hx0]
    decide

/-- Concrete 4×4 grid whose live cells are exactly the 2×2 block anchored at
`(1, 1)`. -/
def blockGrid4 : ZMod 4 → ZMod 4 → Bool := fun i j =>
  decide ((i = 1 ∨ i = 2) ∧ (j = 1 ∨ j = 2))

/-- Witness for C9: the concrete 2×2 block on a 4×4 torus is a fixed point
of `conway_classic`. -/
theorem C9_block_still_life_witness :
    conway_classic blockGrid4 = .ok blockGrid4 :=
  C9_block_still_life blockGrid4 1 1 (by decide) (by decide)
